import Mathlib

/-!
# Verification of the Distribution Explorer (`src/app.py`)

A shallow embedding of the computational content of `app.py`, a single-file
interactive explorer for the skew-normal distribution.  The script is glue
around library calls, so the embedding models each library call by its
documented mathematical semantics over `ℝ`:

* `st.sidebar.slider(min_value, max_value, ...)` delivers a value clamped to
  `[min_value, max_value]` (the widget cannot produce anything outside its
  bounds);
* `scipy.stats.norm.pdf` / `.cdf` are the standard normal density
  `φ(x) = exp(-x²/2)/√(2π)` and its cumulative integral `Φ(z) = ∫_{-∞}^z φ`;
* `scipy.stats.skewnorm.pdf(x, a, loc, scale)` is
  `skewnorm.pdf((x-loc)/scale, a)/scale` with
  `skewnorm.pdf(x, a) = 2·φ(x)·Φ(a·x)` (scipy's documented closed form);
* `np.linspace(a, b, n)` is the `n`-point arithmetic progression
  `a + i·(b-a)/(n-1)`;
* `np.mean`, `np.std` (default `ddof=0`), and `scipy.stats.skew`
  (default `bias=True`, i.e. `g1 = m3/m2^1.5`) are the usual list statistics.

The random sample produced by `skewnorm.rvs` is modelled as an arbitrary list
of reals, so every theorem quantifies over it.
-/

open MeasureTheory Set

namespace DistributionExplorer

/-- Standard normal density `φ(x) = exp(-x²/2)/√(2π)`
(semantics of `scipy.stats.norm.pdf`). -/
noncomputable def norm_pdf (x : ℝ) : ℝ :=
  (Real.sqrt (2 * Real.pi))⁻¹ * Real.exp (-(x ^ 2 / 2))

/-- Standard normal cumulative distribution `Φ(z) = ∫_{-∞}^z φ(t) dt`
(semantics of `scipy.stats.norm.cdf`). -/
noncomputable def norm_cdf (z : ℝ) : ℝ :=
  ∫ t in Iic z, norm_pdf t

/-- Standard skew-normal density, scipy's documented closed form
`skewnorm.pdf(x, a) = 2 φ(x) Φ(a x)`. -/
noncomputable def skewnorm_pdf_std (a x : ℝ) : ℝ :=
  2 * norm_pdf x * norm_cdf (a * x)

/-- Loc-scale skew-normal density: scipy shifts and scales via
`skewnorm.pdf(x, a, loc, scale) = skewnorm.pdf((x - loc)/scale, a)/scale`.
This is the Density Evaluator applied at one point (`app.py` line 95). -/
noncomputable def skewnorm_pdf (a ξ ω x : ℝ) : ℝ :=
  skewnorm_pdf_std a ((x - ξ) / ω) / ω

/-! ## Basic facts about `norm_pdf` and `norm_cdf` -/

lemma sqrt_two_pi_pos : 0 < Real.sqrt (2 * Real.pi) :=
  Real.sqrt_pos.mpr (by positivity)

lemma norm_pdf_nonneg (x : ℝ) : 0 ≤ norm_pdf x :=
  mul_nonneg (inv_nonneg.mpr sqrt_two_pi_pos.le) (Real.exp_nonneg _)

lemma norm_pdf_le (x : ℝ) : norm_pdf x ≤ (Real.sqrt (2 * Real.pi))⁻¹ := by
  have h : Real.exp (-(x ^ 2 / 2)) ≤ 1 :=
    Real.exp_le_one_iff.mpr (neg_nonpos.mpr (by positivity))
  calc norm_pdf x ≤ (Real.sqrt (2 * Real.pi))⁻¹ * 1 :=
        mul_le_mul_of_nonneg_left h (inv_nonneg.mpr sqrt_two_pi_pos.le)
    _ = (Real.sqrt (2 * Real.pi))⁻¹ := mul_one _

lemma norm_pdf_even (x : ℝ) : norm_pdf (-x) = norm_pdf x := by
  unfold norm_pdf
  rw [neg_sq]

lemma norm_pdf_as_gaussian :
    norm_pdf = fun x => (Real.sqrt (2 * Real.pi))⁻¹ * Real.exp (-(2⁻¹ : ℝ) * x ^ 2) := by
  funext x
  unfold norm_pdf
  congr 1
  ring_nf

lemma integrable_norm_pdf : Integrable norm_pdf := by
  rw [norm_pdf_as_gaussian]
  exact (integrable_exp_neg_mul_sq (by norm_num)).const_mul _

lemma integral_norm_pdf : ∫ x, norm_pdf x = 1 := by
  rw [norm_pdf_as_gaussian]
  simp only []
  rw [MeasureTheory.integral_mul_left, integral_gaussian]
  rw [show Real.pi / (2⁻¹ : ℝ) = 2 * Real.pi by ring]
  exact inv_mul_cancel₀ (ne_of_gt sqrt_two_pi_pos)

lemma norm_cdf_nonneg (z : ℝ) : 0 ≤ norm_cdf z :=
  setIntegral_nonneg measurableSet_Iic fun x _ => norm_pdf_nonneg x

lemma norm_cdf_le_one (z : ℝ) : norm_cdf z ≤ 1 := by
  rw [← integral_norm_pdf]
  exact setIntegral_le_integral integrable_norm_pdf (ae_of_all _ norm_pdf_nonneg)

lemma norm_cdf_zero : norm_cdf 0 = 1 / 2 := by
  have hsymm : ∫ x in Iic (0 : ℝ), norm_pdf x = ∫ x in Ioi (0 : ℝ), norm_pdf x := by
    have h1 : ∫ x in Iic (0 : ℝ), norm_pdf x = ∫ x in Iic (0 : ℝ), norm_pdf (-x) := by
      simp only [norm_pdf_even]
    rw [h1, integral_comp_neg_Iic, neg_zero]
  have htotal :
      (∫ x in Iic (0 : ℝ), norm_pdf x) + ∫ x in Ioi (0 : ℝ), norm_pdf x = 1 := by
    rw [← setIntegral_union (Iic_disjoint_Ioi le_rfl) measurableSet_Ioi
      integrable_norm_pdf.integrableOn integrable_norm_pdf.integrableOn,
      Iic_union_Ioi, setIntegral_univ, integral_norm_pdf]
  unfold norm_cdf
  linarith

/-! ## Parameter intake (`app.py` lines 25-63)

Each `st.sidebar.slider(min_value, max_value, ...)` widget delivers a value
clamped to `[min_value, max_value]`; an arbitrary requested value `v` is
modelled and the clamp applied. -/

/-- The "Number of Samples (N)" slider, bounds 100 and 10000 (line 25). -/
def n_samples (v : ℤ) : ℤ := max 100 (min v 10000)

/-- The "Skewness Parameter (α)" slider, bounds -10.0 and 10.0 (line 36). -/
noncomputable def skew_param (v : ℝ) : ℝ := max (-10) (min v 10)

/-- The "Location Parameter (ξ)" slider, bounds -10.0 and 10.0 (line 46). -/
noncomputable def loc_param (v : ℝ) : ℝ := max (-10) (min v 10)

/-- The "Scale Parameter (ω)" slider, bounds 0.1 and 10.0 (line 56). -/
noncomputable def scale_param (v : ℝ) : ℝ := max 0.1 (min v 10)

/-! ## Density-curve x-range (`app.py` lines 92-95)

The generated sample `generated_data` (line 70) is a random draw; it is
modelled as an arbitrary list of reals. -/

/-- Semantics of `ndarray.min()` on a nonempty array ( `[]` given the junk value 0). -/
noncomputable def dataMin : List ℝ → ℝ
  | [] => 0
  | x :: xs => xs.foldl min x

/-- Semantics of `ndarray.max()` on a nonempty array ( `[]` given the junk value 0). -/
noncomputable def dataMax : List ℝ → ℝ
  | [] => 0
  | x :: xs => xs.foldl max x

/-- Line 92: `x_min = min(generated_data.min(), loc_param - 4*scale_param)`. -/
noncomputable def x_min (s : List ℝ) (ξ ω : ℝ) : ℝ :=
  min (dataMin s) (ξ - 4 * ω)

/-- Line 93: `x_max = max(generated_data.max(), loc_param + 4*scale_param)`. -/
noncomputable def x_max (s : List ℝ) (ξ ω : ℝ) : ℝ :=
  max (dataMax s) (ξ + 4 * ω)

/-- Semantics of `np.linspace(a, b, n)`: `n` points `a + i·(b-a)/(n-1)`. -/
noncomputable def linspace (a b : ℝ) (n : ℕ) : List ℝ :=
  (List.range n).map fun i : ℕ => a + (i : ℝ) * ((b - a) / ((n : ℝ) - 1))

/-- Line 94: `x_pdf = np.linspace(x_min, x_max, 500)`. -/
noncomputable def x_pdf (s : List ℝ) (ξ ω : ℝ) : List ℝ :=
  linspace (x_min s ξ ω) (x_max s ξ ω) 500

/-- Line 95: `pdf_values = stats.skewnorm.pdf(x_pdf, a, loc, scale)`,
the Density Evaluator applied pointwise over the x-range. -/
noncomputable def pdf_values (a ξ ω : ℝ) (s : List ℝ) : List ℝ :=
  (x_pdf s ξ ω).map (skewnorm_pdf a ξ ω)

/-! ## Sample statistics (`app.py` lines 73-75) -/

/-- Semantics of `np.mean`. -/
noncomputable def npMean (s : List ℝ) : ℝ := s.sum / s.length

/-- Semantics of `np.std(a, ddof)`: square root of the average of squared deviations,
with divisor `N - ddof`; numpy's default is `ddof = 0`. -/
noncomputable def npStd (s : List ℝ) (ddof : ℕ) : ℝ :=
  Real.sqrt ((s.map fun x => (x - npMean s) ^ 2).sum / ((s.length : ℝ) - ddof))

/-- Line 74: `sample_std_dev = np.std(generated_data)`, so `ddof = 0`. -/
noncomputable def sample_std_dev (s : List ℝ) : ℝ := npStd s 0

/-- The `k`-th central moment `m_k = (Σ (x - mean)^k)/N`, as computed inside
`scipy.stats.skew`. -/
noncomputable def centralMoment (s : List ℝ) (k : ℕ) : ℝ :=
  (s.map fun x => (x - npMean s) ^ k).sum / s.length

/-- Line 75: `sample_skewness = stats.skew(generated_data)`, scipy's
documented biased sample skewness `m3 / m2**1.5`. -/
noncomputable def scipy_skew (s : List ℝ) : ℝ :=
  centralMoment s 3 / centralMoment s 2 ^ ((3 : ℝ) / 2)

/-! ## Chart title (`app.py` lines 117-119) -/

/-- Line 117: `distribution_name = "Normal" if abs(skew_param) < 0.01 else "Skew-Normal"`
-/
noncomputable def distribution_name (α : ℝ) : String :=
  if |α| < 0.01 then "Normal" else "Skew-Normal"

/-- The `title=f'...'` f-string of line 119; `fmt` stands for Python's
`{:.1f}` float formatting. -/
noncomputable def chart_title (α ξ ω : ℝ) (fmt : ℝ → String) : String :=
  distribution_name α ++ " Distribution (α=" ++ fmt α ++ ", ξ=" ++ fmt ξ
    ++ ", ω=" ++ fmt ω ++ ")"

/-! ## Helper lemmas -/

lemma linspace_length (a b : ℝ) (n : ℕ) : (linspace a b n).length = n := by
  rw [linspace, List.length_map, List.length_range]

lemma linspace_get (a b : ℝ) (n i : ℕ) (h : i < (linspace a b n).length) :
    (linspace a b n).get ⟨i, h⟩ = a + i * ((b - a) / ((n : ℝ) - 1)) := by
  simp only [linspace, List.get_eq_getElem, List.getElem_map, List.getElem_range]

lemma x_pdf_length (s : List ℝ) (ξ ω : ℝ) : (x_pdf s ξ ω).length = 500 := by
  rw [x_pdf, linspace_length]

lemma x_pdf_get (s : List ℝ) (ξ ω : ℝ) (i : ℕ) (h : i < (x_pdf s ξ ω).length) :
    (x_pdf s ξ ω).get ⟨i, h⟩
      = x_min s ξ ω + i * ((x_max s ξ ω - x_min s ξ ω) / 499) := by
  have h499 : (((500 : ℕ) : ℝ) - 1) = 499 := by norm_num
  have hg := linspace_get (x_min s ξ ω) (x_max s ξ ω) 500 i h
  rw [h499] at hg
  exact hg

lemma skewnorm_pdf_bounds (a ξ ω x : ℝ) (hω : 0 < ω) :
    0 ≤ skewnorm_pdf a ξ ω x ∧
    skewnorm_pdf a ξ ω x ≤ 2 / (ω * Real.sqrt (2 * Real.pi)) := by
  have hs : Real.sqrt (2 * Real.pi) ≠ 0 := ne_of_gt sqrt_two_pi_pos
  unfold skewnorm_pdf skewnorm_pdf_std
  constructor
  · exact div_nonneg
      (mul_nonneg (mul_nonneg (by norm_num) (norm_pdf_nonneg _)) (norm_cdf_nonneg _))
      hω.le
  · have hnum : 2 * norm_pdf ((x - ξ) / ω) * norm_cdf (a * ((x - ξ) / ω))
        ≤ 2 * (Real.sqrt (2 * Real.pi))⁻¹ * 1 := by
      apply mul_le_mul _ (norm_cdf_le_one _) (norm_cdf_nonneg _) (by positivity)
      exact mul_le_mul_of_nonneg_left (norm_pdf_le _) (by norm_num)
    calc 2 * norm_pdf ((x - ξ) / ω) * norm_cdf (a * ((x - ξ) / ω)) / ω
        ≤ 2 * (Real.sqrt (2 * Real.pi))⁻¹ * 1 / ω :=
          (div_le_div_iff_of_pos_right hω).mpr hnum
      _ = 2 / (ω * Real.sqrt (2 * Real.pi)) := by
          field_simp
          ring

/-! ## Claim theorems -/

/-- C1: for every valid parameter triple (α, ξ, ω) with ω > 0, the densities
returned by the Density Evaluator over the evaluation sequence equal the
closed-form skew-normal PDF `(2/ω)·φ((x-ξ)/ω)·Φ(α·(x-ξ)/ω)` at each x-value,
where `φ` is the standard normal density and `Φ` the standard normal CDF. -/
theorem density_evaluator_closed_form (a ξ ω : ℝ) (s : List ℝ) (hω : 0 < ω) :
    pdf_values a ξ ω s = (x_pdf s ξ ω).map fun x =>
      2 / ω * norm_pdf ((x - ξ) / ω) * norm_cdf (a * ((x - ξ) / ω)) := by
  unfold pdf_values
  refine List.map_congr_left fun x _ => ?_
  unfold skewnorm_pdf skewnorm_pdf_std
  ring

theorem density_evaluator_closed_form_witness :
    pdf_values 1 0 1 [0] = (x_pdf [0] 0 1).map fun x =>
      2 / 1 * norm_pdf ((x - 0) / 1) * norm_cdf (1 * ((x - 0) / 1)) :=
  density_evaluator_closed_form 1 0 1 [0] (by norm_num)

/-- C2: for α = 0 and every ω > 0, ξ, x, the Density Evaluator's output equals
the ordinary normal density `(1/(ω√(2π)))·exp(-(x-ξ)²/(2ω²))`: the skew-normal
PDF with shape 0 degenerates exactly to the normal distribution. -/
theorem alpha_zero_degenerates_to_normal (ξ ω x : ℝ) (hω : 0 < ω) :
    skewnorm_pdf 0 ξ ω x
      = 1 / (ω * Real.sqrt (2 * Real.pi))
          * Real.exp (-((x - ξ) ^ 2 / (2 * ω ^ 2))) := by
  have hω0 : ω ≠ 0 := ne_of_gt hω
  have hs : Real.sqrt (2 * Real.pi) ≠ 0 := ne_of_gt sqrt_two_pi_pos
  unfold skewnorm_pdf skewnorm_pdf_std norm_pdf
  rw [zero_mul, norm_cdf_zero]
  rw [show ((x - ξ) / ω) ^ 2 / 2 = (x - ξ) ^ 2 / (2 * ω ^ 2) by
    rw [div_pow, div_div, mul_comm (ω ^ 2) 2]]
  field_simp
  ring

theorem alpha_zero_degenerates_to_normal_witness :
    skewnorm_pdf 0 0 1 0
      = 1 / (1 * Real.sqrt (2 * Real.pi))
          * Real.exp (-(((0 : ℝ) - 0) ^ 2 / (2 * 1 ^ 2))) :=
  alpha_zero_degenerates_to_normal 0 1 0 (by norm_num)

/-- C3: for every generated sample and parameters (ξ, ω), the DensityCurve's
x-values are exactly 500 points, evenly spaced (all consecutive gaps equal to
one 499th of the width), spanning from `min(sample.min, ξ-4ω)` to
`max(sample.max, ξ+4ω)`. -/
theorem density_curve_500_even_points (s : List ℝ) (ξ ω : ℝ) (hs : s ≠ []) :
    (x_pdf s ξ ω).length = 500 ∧
    (x_pdf s ξ ω).get ⟨0, by rw [x_pdf_length]; norm_num⟩ = x_min s ξ ω ∧
    (x_pdf s ξ ω).get ⟨499, by rw [x_pdf_length]; norm_num⟩ = x_max s ξ ω ∧
    ∀ i (h1 : i + 1 < (x_pdf s ξ ω).length) (h0 : i < (x_pdf s ξ ω).length),
      (x_pdf s ξ ω).get ⟨i + 1, h1⟩ - (x_pdf s ξ ω).get ⟨i, h0⟩
        = (x_max s ξ ω - x_min s ξ ω) / 499 := by
  refine ⟨x_pdf_length s ξ ω, ?_, ?_, ?_⟩
  · rw [x_pdf_get]; norm_num
  · rw [x_pdf_get]; norm_num; ring
  · intro i h1 h0
    rw [x_pdf_get, x_pdf_get]
    push_cast
    ring

theorem density_curve_500_even_points_witness :
    (x_pdf [1] 0 1).length = 500 ∧
    (x_pdf [1] 0 1).get ⟨0, by rw [x_pdf_length]; norm_num⟩ = x_min [1] 0 1 ∧
    (x_pdf [1] 0 1).get ⟨499, by rw [x_pdf_length]; norm_num⟩ = x_max [1] 0 1 ∧
    (x_pdf [1] 0 1).get ⟨1, by rw [x_pdf_length]; norm_num⟩
        - (x_pdf [1] 0 1).get ⟨0, by rw [x_pdf_length]; norm_num⟩
      = (x_max [1] 0 1 - x_min [1] 0 1) / 499 := by
  obtain ⟨ha, hb, hc, hd⟩ := density_curve_500_even_points [1] 0 1 (List.cons_ne_nil 1 [])
  exact ⟨ha, hb, hc, hd 0 (by rw [x_pdf_length]; norm_num) (by rw [x_pdf_length]; norm_num)⟩

/-- C10: for every sample and every ω ≥ 0.1, the density-curve domain is
well-formed and non-degenerate: lower endpoint at most ξ-4ω, upper endpoint at
least ξ+4ω, width at least 8ω and positive, ξ inside the interval, and the
generated x-values strictly increasing. -/
theorem x_range_well_formed (s : List ℝ) (ξ ω : ℝ) (hω : 0.1 ≤ ω) :
    x_min s ξ ω ≤ ξ - 4 * ω ∧ ξ + 4 * ω ≤ x_max s ξ ω ∧
    8 * ω ≤ x_max s ξ ω - x_min s ξ ω ∧
    0 < x_max s ξ ω - x_min s ξ ω ∧
    x_min s ξ ω ≤ ξ ∧ ξ ≤ x_max s ξ ω ∧
    ∀ i (h1 : i + 1 < (x_pdf s ξ ω).length) (h0 : i < (x_pdf s ξ ω).length),
      (x_pdf s ξ ω).get ⟨i, h0⟩ < (x_pdf s ξ ω).get ⟨i + 1, h1⟩ := by
  have h1 : x_min s ξ ω ≤ ξ - 4 * ω := min_le_right _ _
  have h2 : ξ + 4 * ω ≤ x_max s ξ ω := le_max_right _ _
  refine ⟨h1, h2, by linarith, by linarith, by linarith, by linarith, ?_⟩
  intro i hi1 hi0
  rw [x_pdf_get, x_pdf_get]
  have hd : (0 : ℝ) < (x_max s ξ ω - x_min s ξ ω) / 499 := by
    apply div_pos (by linarith) (by norm_num)
  have hi : (i : ℝ) < (i : ℝ) + 1 := by linarith
  have hcast : ((i + 1 : ℕ) : ℝ) = (i : ℝ) + 1 := by push_cast; ring
  rw [hcast]
  have hstep := mul_lt_mul_of_pos_right hi hd
  linarith

theorem x_range_well_formed_witness :
    x_min [0] 0 1 ≤ 0 - 4 * 1 ∧ 0 + 4 * 1 ≤ x_max [0] 0 1 ∧
    8 * 1 ≤ x_max [0] 0 1 - x_min [0] 0 1 ∧
    0 < x_max [0] 0 1 - x_min [0] 0 1 ∧
    x_min [0] 0 1 ≤ 0 ∧ 0 ≤ x_max [0] 0 1 ∧
    (x_pdf [0] 0 1).get ⟨0, by rw [x_pdf_length]; norm_num⟩
      < (x_pdf [0] 0 1).get ⟨1, by rw [x_pdf_length]; norm_num⟩ := by
  obtain ⟨h1, h2, h3, h4, h5, h6, h7⟩ := x_range_well_formed [0] 0 1 (by norm_num)
  exact ⟨h1, h2, h3, h4, h5, h6,
    h7 0 (by rw [x_pdf_length]; norm_num) (by rw [x_pdf_length]; norm_num)⟩

/-- C5: for every non-empty sample, the reported standard deviation is the
population standard deviation (square root of the mean of squared deviations
from the sample mean, divisor N); moreover it differs from the N-1 (Bessel)
convention, witnessed on the sample `[0, 2]`. -/
theorem std_dev_is_population (s : List ℝ) (hs : s ≠ []) :
    sample_std_dev s
      = Real.sqrt ((s.map fun x => (x - npMean s) ^ 2).sum / (s.length : ℝ)) ∧
    sample_std_dev [0, 2] ≠ npStd [0, 2] 1 := by
  constructor
  · unfold sample_std_dev npStd
    norm_num
  · have h0 : sample_std_dev [0, 2] = 1 := by
      unfold sample_std_dev npStd npMean
      norm_num
    have h1 : npStd [0, 2] 1 = Real.sqrt 2 := by
      unfold npStd npMean
      norm_num
    rw [h0, h1]
    intro h
    have h2 := Real.sq_sqrt (by norm_num : (0 : ℝ) ≤ 2)
    rw [← h] at h2
    norm_num at h2

theorem std_dev_is_population_witness :
    sample_std_dev [0, 2]
      = Real.sqrt ((([0, 2] : List ℝ).map fun x => (x - npMean [0, 2]) ^ 2).sum
          / (([0, 2] : List ℝ).length : ℝ)) ∧
    sample_std_dev [0, 2] ≠ npStd [0, 2] 1 :=
  std_dev_is_population [0, 2] (List.cons_ne_nil 0 [2])

/-- C6: for every non-empty sample, the reported skewness equals the third
standardized central moment `g1 = m3 / m2^1.5` (i.e. `m3 / (√m2)³`), the
unadjusted Fisher-Pearson coefficient. -/
theorem skewness_is_g1 (s : List ℝ) (hs : s ≠ []) :
    scipy_skew s = centralMoment s 3 / Real.sqrt (centralMoment s 2) ^ 3 := by
  have hm2 : 0 ≤ centralMoment s 2 := by
    unfold centralMoment
    apply div_nonneg _ (Nat.cast_nonneg _)
    apply List.sum_nonneg
    intro y hy
    obtain ⟨x, _, rfl⟩ := List.mem_map.mp hy
    positivity
  unfold scipy_skew
  congr 1
  rw [Real.sqrt_eq_rpow, ← Real.rpow_natCast (centralMoment s 2 ^ ((1 : ℝ) / 2)) 3,
    ← Real.rpow_mul hm2]
  norm_num

theorem skewness_is_g1_witness :
    scipy_skew [0, 1]
      = centralMoment [0, 1] 3 / Real.sqrt (centralMoment [0, 1] 2) ^ 3 :=
  skewness_is_g1 [0, 1] (List.cons_ne_nil 0 [1])

/-- C7: the chart title labels the regime "Normal" exactly when |α| < 0.01 and
"Skew-Normal" otherwise, and includes the (formatted) current values of α, ξ
and ω. -/
theorem chart_title_regime (α ξ ω : ℝ) (fmt : ℝ → String) :
    (distribution_name α = "Normal" ↔ |α| < 0.01) ∧
    (distribution_name α = "Skew-Normal" ↔ ¬|α| < 0.01) ∧
    chart_title α ξ ω fmt
      = distribution_name α ++ " Distribution (α=" ++ fmt α ++ ", ξ=" ++ fmt ξ
          ++ ", ω=" ++ fmt ω ++ ")" := by
  refine ⟨?_, ?_, rfl⟩ <;>
    by_cases h : |α| < 0.01 <;>
      simp [distribution_name, h]

/-- C8: every parameter value the sliders can deliver satisfies
N ∈ [100, 10000], α ∈ [-10, 10], ξ ∈ [-10, 10], ω ∈ [0.1, 10]; in particular
ω > 0 always holds downstream. -/
theorem parameter_intake_bounds (vN : ℤ) (vα vξ vω : ℝ) :
    (100 ≤ n_samples vN ∧ n_samples vN ≤ 10000) ∧
    (-10 ≤ skew_param vα ∧ skew_param vα ≤ 10) ∧
    (-10 ≤ loc_param vξ ∧ loc_param vξ ≤ 10) ∧
    (0.1 ≤ scale_param vω ∧ scale_param vω ≤ 10 ∧ 0 < scale_param vω) := by
  refine ⟨⟨le_max_left _ _, max_le (by norm_num) (min_le_right _ _)⟩,
    ⟨le_max_left _ _, max_le (by norm_num) (min_le_right _ _)⟩,
    ⟨le_max_left _ _, max_le (by norm_num) (min_le_right _ _)⟩,
    ⟨le_max_left _ _, max_le (by norm_num) (min_le_right _ _), ?_⟩⟩
  exact lt_of_lt_of_le (by norm_num) (le_max_left _ _)

/-- C9: with ω at its minimum allowed value 0.1, the density at every point of
the configured 500-point x-range is a well-defined finite real value: it lies
in the interval [0, 20/√(2π)] (so it is neither NaN nor infinite). -/
theorem min_scale_density_finite (a ξ x : ℝ) (s : List ℝ)
    (hx : x ∈ x_pdf s ξ 0.1) :
    0 ≤ skewnorm_pdf a ξ 0.1 x ∧
    skewnorm_pdf a ξ 0.1 x ≤ 20 / Real.sqrt (2 * Real.pi) := by
  have hs : Real.sqrt (2 * Real.pi) ≠ 0 := ne_of_gt sqrt_two_pi_pos
  have h := skewnorm_pdf_bounds a ξ 0.1 x (by norm_num)
  refine ⟨h.1, h.2.trans (le_of_eq ?_)⟩
  rw [div_eq_div_iff (by positivity) (by positivity)]
  ring

theorem min_scale_density_finite_witness :
    0 ≤ skewnorm_pdf 0 0 0.1 (-0.4) ∧
    skewnorm_pdf 0 0 0.1 (-0.4) ≤ 20 / Real.sqrt (2 * Real.pi) :=
  min_scale_density_finite 0 0 (-0.4) [0] (by
    unfold x_pdf linspace x_min x_max
    refine List.mem_map.mpr ⟨0, List.mem_range.mpr (by norm_num), ?_⟩
    simp only [dataMin, dataMax, List.foldl_nil]
    norm_num [min_def, max_def])

end DistributionExplorer
